import Mathlib

/-
Shallow embedding of the core of `wa-client-lite` (src/whatsapp.ts, src/log.ts):
the per-instance serialized event queue, the persistence layer (saveMessage /
updateMessage over the `messages` table), the ack-code status mapper, the
reconciliation sweep (syncMessagesWithServer), and the Log class.

The local MySQL `messages` table is modelled as a `List MessageRow`; SQL NULL
becomes `Option`.  JavaScript's `x || null` idiom (which also nulls out falsy
values such as the empty string and the number 0) is modelled by `strOrNone` /
`intOrNone`.  Remote HTTP calls are modelled as data (`RemoteCall`) together
with a boolean outcome supplied by the environment; `.catch(() => null)` in the
source corresponds to discarding that outcome.
-/

namespace WaClientLite

/-- JS `s || null` for a string: the empty string is falsy and becomes null. -/
def strOrNone (s : String) : Option String :=
  if s = "" then none else some s

/-- JS `n || null` for a number: 0 is falsy and becomes null. -/
def intOrNone (n : Int) : Option Int :=
  if n = 0 then none else some n

/-- The positional status table of onReceiveMessageStatus, line 243 of
whatsapp.ts: `["PENDING", "SENT", "RECEIVED", "READ", "PLAYED"]`. -/
def statusNames : List String := ["PENDING", "SENT", "RECEIVED", "READ", "PLAYED"]

/-- JS array indexing `arr[i]` with an integer index: out-of-range (including
negative) yields `undefined`, modelled as `none`. -/
def jsIndex (l : List String) (i : Int) : Option String :=
  if 0 ≤ i then l.get? i.toNat else none

/-- JS `x || d` on a string-or-undefined value: `undefined` and the empty
string are falsy, so both fall through to the default. -/
def jsOrDefault (x : Option String) (d : String) : String :=
  match x with
  | some s => if s = "" then d else s
  | none => d

/-- The ack-code → status mapping of onReceiveMessageStatus:
`["PENDING", "SENT", "RECEIVED", "READ", "PLAYED"][message.ack] || "ERROR"`. -/
def ackToStatus (ack : Int) : String :=
  jsOrDefault (jsIndex statusNames ack) "ERROR"

/-- Attachment descriptor of a parsed message (`message.ARQUIVO` in
whatsapp.ts; the fields are those read by saveMessage's parameter list). -/
structure Arquivo where
  TIPO : String
  NOME_ORIGINAL : String
  NOME_ARQUIVO : String
  ARMAZENAMENTO : String
deriving DecidableEq, Repr

/-- A parsed message as consumed by saveMessage (the `ParsedMessage` shape of
src/types.ts, reconstructed from the fields whatsapp.ts reads).  `DATA_HORA`
is a JS `Date` object — always truthy — carried as an opaque integer. -/
structure ParsedMessage where
  ID : String
  MENSAGEM : String
  ID_REFERENCIA : String
  TIPO : String
  TIMESTAMP : Int
  FROM_ME : Bool
  DATA_HORA : Int
  STATUS : String
  ARQUIVO : Option Arquivo
deriving DecidableEq, Repr

/-- One row of the local `messages` table (column list of saveMessage's
INSERT).  Nullable columns are `Option`; the tinyint sync flags are `Bool`. -/
structure MessageRow where
  ID : String
  MENSAGEM : Option String
  ID_REFERENCIA : Option String
  TIPO : Option String
  TIMESTAMP : Option Int
  FROM_ME : Bool
  DATA_HORA : Option Int
  STATUS : Option String
  ARQUIVO_TIPO : Option String
  ARQUIVO_NOME_ORIGINAL : Option String
  ARQUIVO_NOME : Option String
  ARQUIVO_ARMAZENAMENTO : Option String
  SYNC_MESSAGE : Bool
  SYNC_STATUS : Bool
  INSTANCE : String
  FROM : String
deriving DecidableEq, Repr

/-- The local store: the `messages` table as a list of rows. -/
abbrev Store := List MessageRow

/-- The per-instance configuration read by the handlers. -/
structure Instance where
  clientName : String
  whatsappNumber : String
  requestURL : String
  blockedNumbers : List String
deriving DecidableEq, Repr

/-- The INSTANCE column value: `` `${this.clientName}_${this.whatsappNumber}` ``. -/
def instanceKey (inst : Instance) : String :=
  inst.clientName ++ "_" ++ inst.whatsappNumber

/-- Argument of updateMessage: `{ SYNC_STATUS?, SYNC_MESSAGE?, STATUS? }`,
`none` meaning the field was omitted (JS `undefined`). -/
structure UpdateFields where
  STATUS : Option String := none
  SYNC_STATUS : Option Bool := none
  SYNC_MESSAGE : Option Bool := none
deriving DecidableEq, Repr

/-- The STATUS bind parameter of updateMessage: `STATUS || null`, so an
omitted field and the (falsy) empty string both become SQL NULL. -/
def statusParam (u : UpdateFields) : Option String :=
  match u.STATUS with
  | some s => strOrNone s
  | none => none

/-- The SET clause of updateMessage applied to one matching row. -/
def applyUpdate (u : UpdateFields) (r : MessageRow) : MessageRow :=
  { r with
    STATUS := match statusParam u with
      | some s => some s
      | none => r.STATUS
    SYNC_STATUS := match u.SYNC_STATUS with
      | some b => b
      | none => r.SYNC_STATUS
    SYNC_MESSAGE := match u.SYNC_MESSAGE with
      | some b => b
      | none => r.SYNC_MESSAGE }

/-- updateMessage (whatsapp.ts lines 535-555):
`UPDATE messages SET STATUS = COALESCE(?, STATUS), SYNC_STATUS = COALESCE(?,
SYNC_STATUS), SYNC_MESSAGE = COALESCE(?, SYNC_MESSAGE) WHERE ID = ?`.
The sync-flag bind parameters are `v !== undefined ? v : null`.  A row
matches the WHERE clause iff its ID equals `id`; no matching row means no
change and no error (the catch swallows DB errors anyway). -/
def updateMessage (store : Store) (id : String) (u : UpdateFields) : Store :=
  store.map fun r => if r.ID = id then applyUpdate u r else r

/-- The row a fresh INSERT of saveMessage produces from its parameter list
(whatsapp.ts lines 461-478): `|| null` coalescing on the nullable content
columns, `FROM_ME ? 1 : 0`, literal 0 for both sync flags, and the instance
key / counterparty for the last two columns.  `DATA_HORA` is a Date object,
always truthy, hence never nulled. -/
def insertedRow (inst : Instance) (m : ParsedMessage) (fromNum : String) : MessageRow :=
  { ID := m.ID
    MENSAGEM := strOrNone m.MENSAGEM
    ID_REFERENCIA := strOrNone m.ID_REFERENCIA
    TIPO := strOrNone m.TIPO
    TIMESTAMP := intOrNone m.TIMESTAMP
    FROM_ME := m.FROM_ME
    DATA_HORA := some m.DATA_HORA
    STATUS := strOrNone m.STATUS
    ARQUIVO_TIPO := (m.ARQUIVO.map Arquivo.TIPO).bind strOrNone
    ARQUIVO_NOME_ORIGINAL := (m.ARQUIVO.map Arquivo.NOME_ORIGINAL).bind strOrNone
    ARQUIVO_NOME := (m.ARQUIVO.map Arquivo.NOME_ARQUIVO).bind strOrNone
    ARQUIVO_ARMAZENAMENTO := (m.ARQUIVO.map Arquivo.ARMAZENAMENTO).bind strOrNone
    SYNC_MESSAGE := false
    SYNC_STATUS := false
    INSTANCE := instanceKey inst
    FROM := fromNum }

/-- The ON DUPLICATE KEY UPDATE clause of saveMessage (whatsapp.ts lines
446-458) applied to an existing row: every listed column is overwritten with
the corresponding VALUES(...) — in particular SYNC_MESSAGE and SYNC_STATUS
become the inserted literal 0 — while ID, ID_REFERENCIA, INSTANCE and FROM
are not in the update list and keep their stored values. -/
def duplicateKeyUpdate (inst : Instance) (m : ParsedMessage) (fromNum : String)
    (r : MessageRow) : MessageRow :=
  let v := insertedRow inst m fromNum
  { r with
    MENSAGEM := v.MENSAGEM
    TIPO := v.TIPO
    TIMESTAMP := v.TIMESTAMP
    FROM_ME := v.FROM_ME
    DATA_HORA := v.DATA_HORA
    STATUS := v.STATUS
    ARQUIVO_TIPO := v.ARQUIVO_TIPO
    ARQUIVO_NOME_ORIGINAL := v.ARQUIVO_NOME_ORIGINAL
    ARQUIVO_NOME := v.ARQUIVO_NOME
    ARQUIVO_ARMAZENAMENTO := v.ARQUIVO_ARMAZENAMENTO
    SYNC_MESSAGE := v.SYNC_MESSAGE
    SYNC_STATUS := v.SYNC_STATUS }

/-- saveMessage (whatsapp.ts lines 424-490): `INSERT ... ON DUPLICATE KEY
UPDATE ...` into `messages`.  The duplicate key is the ID primary key, so the
statement updates the row(s) whose ID equals `m.ID` when one exists and
appends a fresh row otherwise. -/
def saveMessage (inst : Instance) (store : Store) (m : ParsedMessage)
    (fromNum : String) : Store :=
  if ∃ r ∈ store, r.ID = m.ID then
    store.map fun r =>
      if r.ID = m.ID then duplicateKeyUpdate inst m fromNum r else r
  else
    store ++ [insertedRow inst m fromNum]

/-- Number of rows of the store carrying a given ID. -/
def cntID (store : Store) (id : String) : Nat :=
  store.countP fun r => decide (r.ID = id)

/-- An outbound HTTP call made by the core, as data.  The environment decides
each call's outcome (2xx or failure). -/
inductive RemoteCall where
  /-- `POST /receive_message/{whatsappNumber}/{counterparty}` carrying a
  freshly parsed message (onReceiveMessage, line 219). -/
  | postReceiveParsed (whatsappNumber counterparty : String) (payload : ParsedMessage)
  /-- `POST /receive_message/{whatsappNumber}/{row.FROM}` carrying a stored
  row re-shaped by mapToParsedMessage (syncMessagesWithServer, line 511).  The
  row is carried as-is; mapToParsedMessage lives in utils.ts and only
  re-shapes fields. -/
  | postReceiveRow (whatsappNumber counterparty : String) (payload : MessageRow)
  /-- `PUT /update_message/{pathParam}` with body `{status}` (lines 245 and
  518).  The path parameter is whatever string the call site interpolates. -/
  | putUpdateMessage (pathParam : String) (status : Option String)
deriving DecidableEq, Repr

/-- The blocked message types of onReceiveMessage (line 197). -/
def blockedTypes : List String :=
  ["e2e_notification", "notification_template", "call_log", "gp2"]

/-- The fields of the incoming WAWebJS message/chat that onReceiveMessage's
guard reads. -/
structure IncomingMessage where
  idSerialized : String
  msgType : String
  isStatus : Bool
  isGroup : Bool
  contactNumber : String
  fromNow : Bool
deriving DecidableEq, Repr

/-- The task body enqueued by onReceiveMessage (whatsapp.ts lines 194-237),
acting on the `messages` store.  Inputs from the environment: the parse
result (`none` models a messageParser failure, which throws and is caught by
the task's own catch before any write), `remoteOk` — whether the
`POST /receive_message` call gets a 2xx — and `wMensagens`, the set of IDs
present in the `w_mensagens` table the follow-up SELECT reads.  Note the
axios call ends in `.catch(() => null)`: its outcome is swallowed, and the
subsequent `updateMessage(ID, {SYNC_MESSAGE: true, SYNC_STATUS: true})` runs
whenever the SELECT finds a row, independently of `remoteOk`.  (The
auto-message side effects of lines 207-209 are external to the store.)
Returns the new store and the remote calls issued. -/
def onReceiveMessageTask (inst : Instance) (m : IncomingMessage)
    (parsed : Option ParsedMessage) (remoteOk : Bool) (wMensagens : List String)
    (store : Store) : Store × List RemoteCall :=
  let isBlackListedType := blockedTypes.contains m.msgType
  let isBlackListedContact := inst.blockedNumbers.contains m.contactNumber
  let isBlackListed := isBlackListedType || isBlackListedContact
  if !m.isGroup && m.fromNow && !m.isStatus && !isBlackListed then
    match parsed with
    | none => (store, [])
    | some pm =>
      let store1 := saveMessage inst store pm m.contactNumber
      let _ := remoteOk
      let calls := [RemoteCall.postReceiveParsed inst.whatsappNumber m.contactNumber pm]
      let store2 :=
        if wMensagens.contains pm.ID then
          updateMessage store1 pm.ID { SYNC_MESSAGE := some true, SYNC_STATUS := some true }
        else store1
      (store2, calls)
  else (store, [])

/-- The task body enqueued by onReceiveMessageStatus (whatsapp.ts lines
240-255).  The `PUT /update_message/{id}` call ends in `.catch(() => null)`
and updateMessage swallows its own DB errors, so the catch branch that would
set `SYNC_STATUS: false` is unreachable: `SYNC_STATUS` is set true regardless
of `remoteOk`. -/
def onReceiveStatusTask (inst : Instance) (msgId : String) (ack : Int)
    (remoteOk : Bool) (store : Store) : Store × List RemoteCall :=
  let status := ackToStatus ack
  let _ := remoteOk
  let calls := [RemoteCall.putUpdateMessage msgId (some status)]
  (updateMessage store msgId { SYNC_STATUS := some true }, calls)

/-- The WHERE clause of the sweep's SELECT (whatsapp.ts lines 496-500):
`(SYNC_MESSAGE = 0 OR SYNC_STATUS = 0) AND INSTANCE = ?`. -/
def sweepEligible (inst : Instance) (r : MessageRow) : Bool :=
  (!r.SYNC_MESSAGE || !r.SYNC_STATUS) && decide (r.INSTANCE = instanceKey inst)

/-- One iteration of the sweep's per-row loop (whatsapp.ts lines 502-526),
with `r` the row as selected at sweep start.  If `SYNC_MESSAGE` is unset the
full row is POSTed and, only on a 2xx, both flags are set; a failure rejects
the awaited promise, the per-row catch logs it, and the second `if` is not
reached (its guard is false on the snapshot anyway).  If `SYNC_MESSAGE` is
set but `SYNC_STATUS` is not, the status is PUT to
`/update_message/${message.FROM}` — the row's FROM column, as written at line
518 — and only on a 2xx is `SYNC_STATUS` set. -/
def syncRow (inst : Instance) (remote : RemoteCall → Bool) (store : Store)
    (r : MessageRow) : Store × List RemoteCall :=
  if !r.SYNC_MESSAGE then
    let c := RemoteCall.postReceiveRow inst.whatsappNumber r.FROM r
    if remote c then
      (updateMessage store r.ID { SYNC_MESSAGE := some true, SYNC_STATUS := some true }, [c])
    else (store, [c])
  else if r.SYNC_MESSAGE && !r.SYNC_STATUS then
    let c := RemoteCall.putUpdateMessage r.FROM r.STATUS
    if remote c then
      (updateMessage store r.ID { SYNC_STATUS := some true }, [c])
    else (store, [c])
  else (store, [])

/-- Accumulation of one per-row iteration over the (store, calls-so-far)
pair. -/
def sweepStep (inst : Instance) (remote : RemoteCall → Bool)
    (acc : Store × List RemoteCall) (r : MessageRow) : Store × List RemoteCall :=
  let out := syncRow inst remote acc.1 r
  (out.1, acc.2 ++ out.2)

/-- syncMessagesWithServer (whatsapp.ts lines 492-533): select the eligible
rows once, then process each in turn against the live store; one row's
failure does not abort the remainder. -/
def syncMessagesWithServer (inst : Instance) (remote : RemoteCall → Bool)
    (store : Store) : Store × List RemoteCall :=
  (store.filter (sweepEligible inst)).foldl (sweepStep inst remote) (store, [])

/- ## The unified event queue

`enqueueProcessing` pushes a task and synchronously calls
`processUnifiedQueue`, which returns at once when `processingUnifiedQueue` is
already set, and otherwise sets the flag and drains the queue with
`while (length > 0) { shift; await task() }`, clearing the flag after the
loop.  JavaScript is single-threaded: control can change hands only at an
`await`.  We model the system at that granularity — each step below is one
maximal synchronous segment of the source:

* `QEvent.enqueue t` is a call to `enqueueProcessing` together with the
  synchronous prefix of `processUnifiedQueue` it triggers (up to the first
  `await task()` when the worker was idle);
* `QEvent.complete` is the resolution of the currently awaited task promise
  together with the loop continuation that follows it (re-check the queue,
  shift and start awaiting the next task, or clear the flag and exit).

A task is opaque to the loop except for whether its promise rejects, so a
task is a tag plus a `fails` bit.  When `await task()` rejects, the async
function aborts: the line `processingUnifiedQueue = false` after the loop is
skipped, so the flag stays set. -/

/-- A queued task: an observation tag and whether running it throws. -/
structure QTask where
  tag : Nat
  fails : Bool
deriving DecidableEq, Repr

/-- Queue-system state.  `queue` is `unifiedQueue`, `processing` is
`processingUnifiedQueue`; `running` holds the task(s) currently being
awaited, `executed` the tasks whose promise resolved, in completion order,
and `crashed` the tasks whose promise rejected. -/
structure QState where
  queue : List QTask
  processing : Bool
  running : List QTask
  executed : List QTask
  crashed : List QTask
deriving DecidableEq, Repr

/-- The initial state of an instance: empty queue, flag down. -/
def initQ : QState := ⟨[], false, [], [], []⟩

/-- The synchronous prefix of `processUnifiedQueue` when the flag was down:
set the flag, enter the while loop, shift the head and start awaiting it.  A
start on an empty queue skips the loop body and clears the flag again —
synchronously, so the net effect keeps `processing` down. -/
def startWorker (s : QState) : QState :=
  match s.queue with
  | [] => { s with processing := false }
  | t :: rest => { s with queue := rest, running := s.running ++ [t] }

/-- An interleaving event: an `enqueueProcessing` call, or the resolution or
rejection of the currently awaited task. -/
inductive QEvent where
  | enqueue (t : QTask)
  | complete
deriving DecidableEq, Repr

/-- One event's effect.  `enqueue`: push to the tail; if the flag is down,
set it and run the worker's synchronous prefix.  `complete`: if no task is
being awaited the event is a no-op; if the awaited task rejects, the async
function aborts with the flag left set and the queue untouched; if it
resolves, the loop continues — shift and await the next task, or observe the
queue empty and clear the flag. -/
def runEvent (s : QState) : QEvent → QState
  | QEvent.enqueue t =>
    let s1 := { s with queue := s.queue ++ [t] }
    if s.processing then s1 else startWorker { s1 with processing := true }
  | QEvent.complete =>
    match s.running with
    | [] => s
    | t :: rest =>
      if t.fails then
        { s with running := rest, crashed := s.crashed ++ [t] }
      else
        let s1 := { s with running := rest, executed := s.executed ++ [t] }
        match s1.queue with
        | [] => { s1 with processing := false }
        | t2 :: rest2 => { s1 with queue := rest2, running := s1.running ++ [t2] }

/-- Run a list of events from a given state. -/
def runFrom (s : QState) (evts : List QEvent) : QState :=
  evts.foldl runEvent s

/-- Run a list of events from the initial state. -/
def runEvents (evts : List QEvent) : QState :=
  runFrom initQ evts

/-- The tasks enqueued by a list of events, in enqueue order. -/
def enqueuedOf (evts : List QEvent) : List QTask :=
  evts.foldr
    (fun e acc =>
      match e with
      | QEvent.enqueue t => t :: acc
      | QEvent.complete => acc)
    []

/-- Every task the system has seen, in enqueue order: completed ones first,
then a crashed one, then the one being awaited, then the waiting queue. -/
def tasksOf (s : QState) : List QTask :=
  s.executed ++ s.crashed ++ s.running ++ s.queue

/- ## The Log class (src/log.ts) -/

/-- Observable state of a `Log` object: the constructor leaves `finishedAt`
undefined (`none`); only `finish()` sets it. -/
structure LogState where
  finishedAt : Option Nat
  hasError : Bool
  lineCount : Nat
deriving DecidableEq, Repr

/-- A fresh Log, as built by the constructor (log.ts lines 29-36):
`finishedAt = undefined`, no error, no lines. -/
def mkLog : LogState := ⟨none, false, 0⟩

/-- The Log mutators the rest of the code calls.  `setData` transforms the
payload only; `setError` records an error; `event` appends a line; `finish`
stamps `finishedAt`. -/
inductive LogOp where
  | setData
  | setError
  | event
  | finish (t : Nat)
deriving DecidableEq, Repr

/-- Effect of one mutator on the observable Log state. -/
def applyLogOp (l : LogState) : LogOp → LogState
  | LogOp.setData => l
  | LogOp.setError => { l with hasError := true }
  | LogOp.event => { l with lineCount := l.lineCount + 1 }
  | LogOp.finish t => { l with finishedAt := some t }

/-- Outcome of `Log.save()`: whether a file was written and whether an
exception escaped to the caller. -/
structure SaveResult where
  wroteFile : Bool
  threw : Bool
deriving DecidableEq, Repr

/-- `Log.save()` (log.ts lines 77-101).  The whole body is inside
`try ... catch (err) { logWithDate(...) }`, so nothing ever escapes.  When
`finishedAt` is unset the guard throws before any filesystem access — no
file is written.  Otherwise the write happens, subject to the filesystem
cooperating (`fsOk`); a filesystem error is likewise caught and only
logged. -/
def logSave (fsOk : Bool) (l : LogState) : SaveResult :=
  if l.finishedAt = none then ⟨false, false⟩
  else if fsOk then ⟨true, false⟩
  else ⟨false, false⟩

/-- The Log operations the onReceiveMessage task body performs on its log in
the failure path (whatsapp.ts lines 195, 213, 223, 231-232): construct,
setData twice, setError, then save — `finish()` is never called anywhere in
whatsapp.ts. -/
def messageTaskLogOps : List LogOp :=
  [LogOp.setData, LogOp.setData, LogOp.setError]

/- ## Concrete fixtures used by counterexamples and witnesses -/

/-- A sample instance. -/
def inst0 : Instance := ⟨"cli", "111", "http://backend", []⟩

/-- A sample parsed message with ID "M1". -/
def pm0 : ParsedMessage :=
  ⟨"M1", "hi", "", "chat", 5, false, 10, "RECEIVED", none⟩

/-- A second parsed message with the same ID and a different body. -/
def pm1 : ParsedMessage :=
  ⟨"M1", "hello again", "", "chat", 6, false, 11, "READ", none⟩

/-- A sample incoming event that passes every guard of onReceiveMessage. -/
def im0 : IncomingMessage := ⟨"M1", "chat", false, false, "555", true⟩

/-- A stored row of inst0 whose existence is known remotely but whose latest
status is not (`SYNC_MESSAGE = 1`, `SYNC_STATUS = 0`). -/
def row0 : MessageRow :=
  { ID := "M1", MENSAGEM := some "hi", ID_REFERENCIA := none, TIPO := some "chat"
    TIMESTAMP := some 5, FROM_ME := false, DATA_HORA := some 10
    STATUS := some "SENT", ARQUIVO_TIPO := none, ARQUIVO_NOME_ORIGINAL := none
    ARQUIVO_NOME := none, ARQUIVO_ARMAZENAMENTO := none
    SYNC_MESSAGE := true, SYNC_STATUS := false
    INSTANCE := "cli_111", FROM := "5511999" }

/-- A fully settled row with a different ID ("M2"). -/
def row1 : MessageRow :=
  { row0 with ID := "M2", SYNC_MESSAGE := true, SYNC_STATUS := true }

/- ## Theorems -/

/-- C5: the acknowledgement-code-to-status mapping is total: code 0 maps to
PENDING, 1 to SENT, 2 to RECEIVED, 3 to READ, 4 to PLAYED, and every other
integer code (negative or at least 5) maps to ERROR. -/
theorem ackToStatus_total :
    ackToStatus 0 = "PENDING" ∧ ackToStatus 1 = "SENT" ∧
    ackToStatus 2 = "RECEIVED" ∧ ackToStatus 3 = "READ" ∧
    ackToStatus 4 = "PLAYED" ∧
    ∀ code : Int, code < 0 ∨ 5 ≤ code → ackToStatus code = "ERROR" := by
  refine ⟨by decide, by decide, by decide, by decide, by decide, ?_⟩
  intro code h
  have hnone : jsIndex statusNames code = none := by
    unfold jsIndex
    rcases h with h | h
    · rw [if_neg (by omega)]
    · rw [if_pos (by omega)]
      apply List.get?_eq_none.mpr
      simp only [statusNames, List.length_cons, List.length_nil]
      omega
  unfold ackToStatus
  rw [hnone]
  rfl

/-- C5 witness: code 9 is out of range and maps to ERROR. -/
theorem ackToStatus_total_witness :
    ((9 : Int) < 0 ∨ 5 ≤ (9 : Int)) ∧ ackToStatus 9 = "ERROR" :=
  ⟨Or.inr (by decide), ackToStatus_total.2.2.2.2.2 9 (Or.inr (by decide))⟩

/-- C7: updateMessage is a partial update with coalesce semantics — every
field omitted from the update object (STATUS, SYNC_STATUS, SYNC_MESSAGE)
keeps its stored value on every row; in particular an update carrying only
`STATUS := "READ"` leaves both sync flags of every row unchanged. -/
theorem updateMessage_coalesce_frame :
    ∀ (store : Store) (id : String) (u : UpdateFields),
      (u.SYNC_MESSAGE = none →
        (updateMessage store id u).map (fun r => r.SYNC_MESSAGE) =
          store.map (fun r => r.SYNC_MESSAGE)) ∧
      (u.SYNC_STATUS = none →
        (updateMessage store id u).map (fun r => r.SYNC_STATUS) =
          store.map (fun r => r.SYNC_STATUS)) ∧
      (u.STATUS = none →
        (updateMessage store id u).map (fun r => r.STATUS) =
          store.map (fun r => r.STATUS)) ∧
      (updateMessage store id { STATUS := some "READ" }).map
          (fun r => (r.SYNC_MESSAGE, r.SYNC_STATUS)) =
        store.map (fun r => (r.SYNC_MESSAGE, r.SYNC_STATUS)) := by
  intro store id u
  refine ⟨?_, ?_, ?_, ?_⟩
  · intro hu
    unfold updateMessage
    rw [List.map_map]
    apply List.map_congr_left
    intro r _
    by_cases h : r.ID = id <;> simp [Function.comp, applyUpdate, h, hu]
  · intro hu
    unfold updateMessage
    rw [List.map_map]
    apply List.map_congr_left
    intro r _
    by_cases h : r.ID = id <;> simp [Function.comp, applyUpdate, h, hu]
  · intro hu
    unfold updateMessage
    rw [List.map_map]
    apply List.map_congr_left
    intro r _
    by_cases h : r.ID = id <;> simp [Function.comp, applyUpdate, statusParam, h, hu]
  · unfold updateMessage
    rw [List.map_map]
    apply List.map_congr_left
    intro r _
    by_cases h : r.ID = id <;> simp [Function.comp, applyUpdate, h]

/-- C7 witness: on a one-row store, updating only the status to READ keeps
both sync flags as they were. -/
theorem updateMessage_coalesce_frame_witness :
    (updateMessage [row0] "M1" { STATUS := some "READ" }).map
        (fun r => (r.SYNC_MESSAGE, r.SYNC_STATUS)) =
      [row0].map (fun r => (r.SYNC_MESSAGE, r.SYNC_STATUS)) :=
  (updateMessage_coalesce_frame [row0] "M1" { STATUS := some "READ" }).2.2.2

/-- C8: updateMessage with an identifier matching no stored row is a silent
no-op: the store is returned unchanged (no row created, nothing modified, and
the source wraps the statement in a catch so no error reaches the caller). -/
theorem updateMessage_missing_id_noop :
    ∀ (store : Store) (id : String) (u : UpdateFields),
      (∀ r ∈ store, r.ID ≠ id) → updateMessage store id u = store := by
  intro store id u h
  unfold updateMessage
  have hm : store.map (fun r => if r.ID = id then applyUpdate u r else r) =
      store.map (fun r => r) := by
    apply List.map_congr_left
    intro r hr
    rw [if_neg (h r hr)]
  rw [hm, List.map_id']

/-- C8 witness: updating the absent identifier M-missing on a one-row store
returns the store unchanged. -/
theorem updateMessage_missing_id_noop_witness :
    (∀ r ∈ [row0], r.ID ≠ "M-missing") ∧
      updateMessage [row0] "M-missing" { STATUS := some "READ" } = [row0] :=
  ⟨by decide, updateMessage_missing_id_noop [row0] "M-missing"
    { STATUS := some "READ" } (by decide)⟩

/-- Neither branch of saveMessage changes or invents row identifiers:
the duplicate-key update leaves ID alone, and the insert's new row carries
`m.ID`.  Every row of the result with ID `m.ID` therefore went through the
VALUES(...) overwrite (or is the fresh insert) and carries the inserted
MENSAGEM and the literal-0 sync flags. -/
theorem saveMessage_ID_fields (inst : Instance) (store : Store)
    (m : ParsedMessage) (fromNum : String) :
    ∀ r ∈ saveMessage inst store m fromNum, r.ID = m.ID →
      r.MENSAGEM = strOrNone m.MENSAGEM ∧
      r.SYNC_MESSAGE = false ∧ r.SYNC_STATUS = false := by
  intro r hr hid
  unfold saveMessage at hr
  by_cases hex : ∃ r' ∈ store, r'.ID = m.ID
  · rw [if_pos hex] at hr
    obtain ⟨r0, _, heq⟩ := List.mem_map.mp hr
    by_cases h0 : r0.ID = m.ID
    · rw [if_pos h0] at heq
      subst heq
      exact ⟨rfl, rfl, rfl⟩
    · rw [if_neg h0] at heq
      subst heq
      exact absurd hid h0
  · rw [if_neg hex] at hr
    rcases List.mem_append.mp hr with hmem | hmem
    · exact absurd ⟨r, hmem, hid⟩ hex
    · rw [List.mem_singleton.mp hmem]
      exact ⟨rfl, rfl, rfl⟩

/-- saveMessage keeps the row count for `m.ID` at exactly one whenever the
store held at most one such row before (the ID is the table's unique key):
the update branch rewrites the matching row in place, the insert branch
appends exactly one. -/
theorem cntID_saveMessage (inst : Instance) (store : Store) (m : ParsedMessage)
    (fromNum : String) (h : cntID store m.ID ≤ 1) :
    cntID (saveMessage inst store m fromNum) m.ID = 1 := by
  unfold saveMessage
  by_cases hex : ∃ r ∈ store, r.ID = m.ID
  · rw [if_pos hex]
    have hmap : cntID (store.map fun r =>
        if r.ID = m.ID then duplicateKeyUpdate inst m fromNum r else r) m.ID =
        cntID store m.ID := by
      unfold cntID
      rw [List.countP_map]
      apply List.countP_congr
      intro r _
      by_cases h0 : r.ID = m.ID
      · simp [Function.comp, h0, duplicateKeyUpdate]
      · simp [Function.comp, h0]
    rw [hmap]
    have hpos : 0 < cntID store m.ID := by
      unfold cntID
      apply List.countP_pos_iff.mpr
      obtain ⟨r, hr, hid⟩ := hex
      exact ⟨r, hr, by simp [hid]⟩
    omega
  · rw [if_neg hex]
    unfold cntID
    rw [List.countP_append]
    have h0 : store.countP (fun r => decide (r.ID = m.ID)) = 0 := by
      apply List.countP_eq_zero.mpr
      intro r hr
      simp only [decide_eq_true_eq]
      exact fun hid => hex ⟨r, hr, hid⟩
    rw [h0]
    simp [insertedRow]

/-- C9: when saveMessage hits an existing row (duplicate-key path), the row's
SYNC_MESSAGE and SYNC_STATUS are both reset to false regardless of their
prior values, making the row eligible again for the reconciliation sweep. -/
theorem saveMessage_dup_resets_sync :
    ∀ (inst : Instance) (store : Store) (m : ParsedMessage) (fromNum : String),
      (∃ r ∈ store, r.ID = m.ID) →
      ∀ r ∈ saveMessage inst store m fromNum, r.ID = m.ID →
        r.SYNC_MESSAGE = false ∧ r.SYNC_STATUS = false := by
  intro inst store m fromNum _ r hr hid
  exact (saveMessage_ID_fields inst store m fromNum r hr hid).2

/-- C9 witness: re-saving M1 over a store whose M1 row has SYNC_MESSAGE set
leaves the updated row with both flags false. -/
theorem saveMessage_dup_resets_sync_witness :
    (∃ r ∈ [row0], r.ID = pm0.ID) ∧
      duplicateKeyUpdate inst0 pm0 "555" row0 ∈ saveMessage inst0 [row0] pm0 "555" ∧
      (duplicateKeyUpdate inst0 pm0 "555" row0).SYNC_MESSAGE = false ∧
      (duplicateKeyUpdate inst0 pm0 "555" row0).SYNC_STATUS = false :=
  ⟨by decide, by decide,
    saveMessage_dup_resets_sync inst0 [row0] pm0 "555" (by decide)
      (duplicateKeyUpdate inst0 pm0 "555" row0) (by decide) (by decide)⟩

/-- C6: saveMessage is an idempotent insert-or-update keyed by the message
identifier — calling it twice with the same ID and different bodies leaves
exactly one row with that ID, and that row holds the second call's body. -/
theorem saveMessage_upsert_second_body :
    ∀ (inst : Instance) (store : Store) (m1 m2 : ParsedMessage) (f1 f2 : String),
      m1.ID = m2.ID → m1.MENSAGEM ≠ m2.MENSAGEM → m2.MENSAGEM ≠ "" →
      cntID store m1.ID ≤ 1 →
      ((saveMessage inst (saveMessage inst store m1 f1) m2 f2).filter
          (fun r => decide (r.ID = m2.ID))).map (fun r => r.MENSAGEM) =
        [some m2.MENSAGEM] := by
  intro inst store m1 m2 f1 f2 hID _ hne hcnt
  have h1 : cntID (saveMessage inst store m1 f1) m1.ID = 1 :=
    cntID_saveMessage inst store m1 f1 hcnt
  have h2 : cntID (saveMessage inst (saveMessage inst store m1 f1) m2 f2) m2.ID = 1 := by
    apply cntID_saveMessage
    rw [← hID]
    omega
  have hlen : ((saveMessage inst (saveMessage inst store m1 f1) m2 f2).filter
      (fun r => decide (r.ID = m2.ID))).length = 1 := by
    unfold cntID at h2
    rw [List.countP_eq_length_filter] at h2
    exact h2
  obtain ⟨r, hr⟩ := List.length_eq_one.mp hlen
  rw [hr]
  have hmem : r ∈ (saveMessage inst (saveMessage inst store m1 f1) m2 f2).filter
      (fun r => decide (r.ID = m2.ID)) := by
    rw [hr]
    exact List.mem_singleton_self r
  have hin := List.mem_filter.mp hmem
  have hid : r.ID = m2.ID := by simpa using hin.2
  have hfields := saveMessage_ID_fields inst (saveMessage inst store m1 f1) m2 f2 r hin.1 hid
  rw [List.map_singleton, hfields.1]
  unfold strOrNone
  rw [if_neg hne]

/-- C6 witness: saving pm0 then pm1 (same ID M1, bodies "hi" then
"hello again") over the empty store leaves exactly one M1 row holding
"hello again". -/
theorem saveMessage_upsert_second_body_witness :
    pm0.ID = pm1.ID ∧ pm0.MENSAGEM ≠ pm1.MENSAGEM ∧ pm1.MENSAGEM ≠ "" ∧
      cntID [] pm0.ID ≤ 1 ∧
      ((saveMessage inst0 (saveMessage inst0 [] pm0 "555") pm1 "555").filter
          (fun r => decide (r.ID = pm1.ID))).map (fun r => r.MENSAGEM) =
        [some pm1.MENSAGEM] :=
  ⟨by decide, by decide, by decide, by decide,
    saveMessage_upsert_second_body inst0 [] pm0 pm1 "555" "555"
      (by decide) (by decide) (by decide) (by decide)⟩

/- ## Queue lemmas -/

/-- Reachability invariant of the queue system: an idle worker means an
empty queue with nothing running and no crash recorded; a crash leaves the
flag up with nothing running; and at most one task is ever awaited. -/
def QInv (s : QState) : Prop :=
  (s.processing = false → s.running = [] ∧ s.queue = [] ∧ s.crashed = []) ∧
  (s.crashed ≠ [] → s.running = [] ∧ s.processing = true) ∧
  s.running.length ≤ 1

theorem qInv_init : QInv initQ := by
  refine ⟨fun _ => ⟨rfl, rfl, rfl⟩, fun h => absurd rfl h, by decide⟩

/-- Enqueue while the worker is busy only appends to the tail. -/
theorem runEvent_enqueue_busy (s : QState) (t : QTask) (hp : s.processing = true) :
    runEvent s (QEvent.enqueue t) = { s with queue := s.queue ++ [t] } := by
  simp [runEvent, hp]

/-- Enqueue on an idle worker (whose queue and running slot are empty, as the
invariant guarantees) raises the flag and starts awaiting the new task. -/
theorem runEvent_enqueue_idle (s : QState) (t : QTask) (hp : s.processing = false)
    (hq : s.queue = []) (hrun : s.running = []) :
    runEvent s (QEvent.enqueue t) =
      { s with queue := [], processing := true, running := [t] } := by
  simp [runEvent, hp, startWorker, hq, hrun]

/-- A completion event with nothing awaited is a no-op. -/
theorem runEvent_complete_none (s : QState) (hr : s.running = []) :
    runEvent s QEvent.complete = s := by
  simp [runEvent, hr]

/-- A rejecting task aborts the worker: the flag and queue are untouched. -/
theorem runEvent_complete_fail (s : QState) (t : QTask) (hr : s.running = [t])
    (hf : t.fails = true) :
    runEvent s QEvent.complete = { s with running := [], crashed := s.crashed ++ [t] } := by
  simp [runEvent, hr, hf]

/-- A resolving task with an empty queue lets the worker go idle. -/
theorem runEvent_complete_ok_empty (s : QState) (t : QTask) (hr : s.running = [t])
    (hf : t.fails = false) (hq : s.queue = []) :
    runEvent s QEvent.complete =
      { s with running := [], executed := s.executed ++ [t], processing := false,
               queue := [] } := by
  simp [runEvent, hr, hf, hq]

/-- A resolving task with a nonempty queue shifts and awaits the next one. -/
theorem runEvent_complete_ok_next (s : QState) (t t2 : QTask) (rest2 : List QTask)
    (hr : s.running = [t]) (hf : t.fails = false) (hq : s.queue = t2 :: rest2) :
    runEvent s QEvent.complete =
      { s with running := [t2], executed := s.executed ++ [t], queue := rest2 } := by
  simp [runEvent, hr, hf, hq]

theorem qInv_step (s : QState) (e : QEvent) (h : QInv s) : QInv (runEvent s e) := by
  obtain ⟨hidle, hcrash, hone⟩ := h
  cases e with
  | enqueue t =>
    by_cases hp : s.processing = true
    · rw [runEvent_enqueue_busy s t hp]
      exact ⟨fun hf => (by rw [hp] at hf; cases hf), fun hc => ⟨(hcrash hc).1, hp⟩, hone⟩
    · have hp' : s.processing = false := by simpa using hp
      obtain ⟨hrun, hq, hcr⟩ := hidle hp'
      rw [runEvent_enqueue_idle s t hp' hq hrun]
      exact ⟨fun hf => (by cases hf), fun hc => absurd hcr (by rw [hcr] at hc ⊢; exact hc),
        by simp⟩
  | complete =>
    cases hr : s.running with
    | nil => rw [runEvent_complete_none s hr]; exact ⟨hidle, hcrash, hone⟩
    | cons t rest =>
      have hrest : rest = [] := by
        rw [hr] at hone; simpa using hone
      subst hrest
      have hp : s.processing = true := by
        cases hp' : s.processing
        · exact absurd (hidle hp').1 (by rw [hr]; simp)
        · rfl
      have hcr : s.crashed = [] := by
        cases hc : s.crashed with
        | nil => rfl
        | cons c cs => exact absurd (hcrash (by rw [hc]; simp)).1 (by rw [hr]; simp)
      cases hfail : t.fails
      · cases hq : s.queue with
        | nil =>
          rw [runEvent_complete_ok_empty s t hr hfail hq]
          exact ⟨fun _ => ⟨rfl, rfl, hcr⟩,
            fun hc => absurd hcr (by rw [hcr] at hc ⊢; exact hc), by simp⟩
        | cons t2 rest2 =>
          rw [runEvent_complete_ok_next s t t2 rest2 hr hfail hq]
          exact ⟨fun hf => (by rw [hp] at hf; cases hf),
            fun hc => absurd hcr (by rw [hcr] at hc ⊢; exact hc), by simp⟩
      · rw [runEvent_complete_fail s t hr hfail]
        exact ⟨fun hf => (by rw [hp] at hf; cases hf), fun _ => ⟨rfl, hp⟩, by simp⟩

/-- One event extends the system's task ledger by exactly the tasks it
enqueues (completions only move tasks between segments of the ledger). -/
theorem tasksOf_step (s : QState) (e : QEvent) (h : QInv s) :
    tasksOf (runEvent s e) =
      tasksOf s ++ (match e with | QEvent.enqueue t => [t] | QEvent.complete => []) := by
  obtain ⟨hidle, hcrash, hone⟩ := h
  cases e with
  | enqueue t =>
    by_cases hp : s.processing = true
    · rw [runEvent_enqueue_busy s t hp]
      simp [tasksOf]
    · have hp' : s.processing = false := by simpa using hp
      obtain ⟨hrun, hq, hcr⟩ := hidle hp'
      rw [runEvent_enqueue_idle s t hp' hq hrun]
      simp [tasksOf, hrun, hq, hcr]
  | complete =>
    cases hr : s.running with
    | nil => rw [runEvent_complete_none s hr]; simp [tasksOf]
    | cons t rest =>
      have hrest : rest = [] := by
        rw [hr] at hone; simpa using hone
      subst hrest
      have hcr : s.crashed = [] := by
        cases hc : s.crashed with
        | nil => rfl
        | cons c cs => exact absurd (hcrash (by rw [hc]; simp)).1 (by rw [hr]; simp)
      cases hfail : t.fails
      · cases hq : s.queue with
        | nil =>
          rw [runEvent_complete_ok_empty s t hr hfail hq]
          simp [tasksOf, hr, hcr, hq]
        | cons t2 rest2 =>
          rw [runEvent_complete_ok_next s t t2 rest2 hr hfail hq]
          simp [tasksOf, hr, hcr, hq]
      · rw [runEvent_complete_fail s t hr hfail]
        simp [tasksOf, hr, hcr]

theorem runFrom_inv_tasks :
    ∀ (evts : List QEvent) (s : QState), QInv s →
      QInv (runFrom s evts) ∧ tasksOf (runFrom s evts) = tasksOf s ++ enqueuedOf evts := by
  intro evts
  induction evts with
  | nil => intro s h; exact ⟨h, by simp [runFrom, enqueuedOf]⟩
  | cons e rest ih =>
    intro s h
    have hstep := qInv_step s e h
    have htask := tasksOf_step s e h
    have hrec := ih (runEvent s e) hstep
    refine ⟨hrec.1, ?_⟩
    have hrun : runFrom s (e :: rest) = runFrom (runEvent s e) rest := rfl
    rw [hrun, hrec.2, htask]
    cases e with
    | enqueue t => simp [enqueuedOf]
    | complete => simp [enqueuedOf]

theorem runEvents_inv (evts : List QEvent) :
    QInv (runEvents evts) ∧ tasksOf (runEvents evts) = enqueuedOf evts := by
  have h := runFrom_inv_tasks evts initQ qInv_init
  exact ⟨h.1, by simpa [tasksOf, initQ] using h.2⟩

/-- From a wedged state — flag up, nothing being awaited, as left behind by a
crashed task — every further event only appends externally enqueued tasks to
the queue: completions are no-ops and enqueues see the flag up. -/
theorem runFrom_wedged :
    ∀ (evts : List QEvent) (s : QState), s.processing = true → s.running = [] →
      runFrom s evts = { s with queue := s.queue ++ enqueuedOf evts } := by
  intro evts
  induction evts with
  | nil => intro s _ _; simp [runFrom, enqueuedOf]
  | cons e rest ih =>
    intro s hp hrun
    have hstep : runFrom s (e :: rest) = runFrom (runEvent s e) rest := rfl
    cases e with
    | enqueue t =>
      rw [hstep, runEvent_enqueue_busy s t hp]
      rw [ih { s with queue := s.queue ++ [t] } hp hrun]
      simp [enqueuedOf]
    | complete =>
      rw [hstep, runEvent_complete_none s hrun]
      rw [ih s hp hrun]
      simp [enqueuedOf]

/-- C2: for every interleaving of enqueue calls and task completions, the
completed tasks form a prefix of the enqueue order (the remaining tasks —
crashed, awaited, or queued — make up the rest of it, in order), at most one
task is being executed at any point, and whenever the worker has gone idle
every enqueued task has been executed. -/
theorem queue_fifo_serial :
    ∀ evts : List QEvent,
      enqueuedOf evts =
        (runEvents evts).executed ++
          ((runEvents evts).crashed ++ (runEvents evts).running ++ (runEvents evts).queue) ∧
      (runEvents evts).running.length ≤ 1 ∧
      ((runEvents evts).processing = false →
        (runEvents evts).executed = enqueuedOf evts) := by
  intro evts
  obtain ⟨⟨hidle, _, hone⟩, htasks⟩ := runEvents_inv evts
  refine ⟨?_, hone, ?_⟩
  · rw [← htasks]
    simp [tasksOf]
  · intro hp
    obtain ⟨hrun, hq, hcr⟩ := hidle hp
    rw [← htasks]
    simp [tasksOf, hrun, hq, hcr]

/-- C2 witness: enqueue two tasks (the second while the first is running),
let both complete — they execute in FIFO order and the idle queue has
executed everything that was enqueued. -/
theorem queue_fifo_serial_witness :
    enqueuedOf [QEvent.enqueue ⟨1, false⟩, QEvent.enqueue ⟨2, false⟩,
        QEvent.complete, QEvent.complete] =
      (runEvents [QEvent.enqueue ⟨1, false⟩, QEvent.enqueue ⟨2, false⟩,
        QEvent.complete, QEvent.complete]).executed ++
        ((runEvents [QEvent.enqueue ⟨1, false⟩, QEvent.enqueue ⟨2, false⟩,
          QEvent.complete, QEvent.complete]).crashed ++
         (runEvents [QEvent.enqueue ⟨1, false⟩, QEvent.enqueue ⟨2, false⟩,
          QEvent.complete, QEvent.complete]).running ++
         (runEvents [QEvent.enqueue ⟨1, false⟩, QEvent.enqueue ⟨2, false⟩,
          QEvent.complete, QEvent.complete]).queue) ∧
    (runEvents [QEvent.enqueue ⟨1, false⟩, QEvent.enqueue ⟨2, false⟩,
        QEvent.complete, QEvent.complete]).running.length ≤ 1 ∧
    (runEvents [QEvent.enqueue ⟨1, false⟩, QEvent.enqueue ⟨2, false⟩,
        QEvent.complete, QEvent.complete]).executed =
      enqueuedOf [QEvent.enqueue ⟨1, false⟩, QEvent.enqueue ⟨2, false⟩,
        QEvent.complete, QEvent.complete] :=
  ⟨(queue_fifo_serial _).1, (queue_fifo_serial _).2.1,
    (queue_fifo_serial _).2.2 (by decide)⟩

/-- C3 counterexample: a task that throws leaves the worker loop aborted with
the processing flag still set — a task enqueued afterwards sits in the queue
unexecuted even after a further completion event, refuting the claim that the
flag is reset and subsequently enqueued tasks still run. -/
theorem queue_failure_stalls_cex :
    (runEvents [QEvent.enqueue ⟨1, true⟩, QEvent.complete,
        QEvent.enqueue ⟨2, false⟩, QEvent.complete]).processing = true ∧
    (runEvents [QEvent.enqueue ⟨1, true⟩, QEvent.complete,
        QEvent.enqueue ⟨2, false⟩, QEvent.complete]).executed = [] ∧
    (runEvents [QEvent.enqueue ⟨1, true⟩, QEvent.complete,
        QEvent.enqueue ⟨2, false⟩, QEvent.complete]).queue = [⟨2, false⟩] ∧
    (runEvents [QEvent.enqueue ⟨1, true⟩, QEvent.complete,
        QEvent.enqueue ⟨2, false⟩, QEvent.complete]).crashed = [⟨1, true⟩] := by
  decide

/-- C3 amended: a throwing task is never re-enqueued, but the worker loop
does not contain the failure either — once a task has crashed, the
processing flag stays set forever, no further task is ever executed, and the
queue only accumulates what later enqueue calls append (every enqueued task
is stranded until a process restart). -/
theorem queue_failure_not_contained :
    ∀ evts more : List QEvent,
      (runEvents evts).crashed ≠ [] →
      (runFrom (runEvents evts) more).executed = (runEvents evts).executed ∧
      (runFrom (runEvents evts) more).processing = true ∧
      (runFrom (runEvents evts) more).crashed = (runEvents evts).crashed ∧
      (runFrom (runEvents evts) more).queue =
        (runEvents evts).queue ++ enqueuedOf more := by
  intro evts more hc
  obtain ⟨⟨_, hcrash, _⟩, _⟩ := runEvents_inv evts
  obtain ⟨hrun, hp⟩ := hcrash hc
  rw [runFrom_wedged more (runEvents evts) hp hrun]
  exact ⟨rfl, hp, rfl, rfl⟩

/-- C3 witness: after task 1 crashes, running two further events (an enqueue
of task 2 and a completion) executes nothing, keeps the flag up, keeps the
crash record, and merely appends task 2 to the queue. -/
theorem queue_failure_not_contained_witness :
    (runEvents [QEvent.enqueue ⟨1, true⟩, QEvent.complete]).crashed ≠ [] ∧
    (runFrom (runEvents [QEvent.enqueue ⟨1, true⟩, QEvent.complete])
        [QEvent.enqueue ⟨2, false⟩, QEvent.complete]).executed =
      (runEvents [QEvent.enqueue ⟨1, true⟩, QEvent.complete]).executed ∧
    (runFrom (runEvents [QEvent.enqueue ⟨1, true⟩, QEvent.complete])
        [QEvent.enqueue ⟨2, false⟩, QEvent.complete]).processing = true ∧
    (runFrom (runEvents [QEvent.enqueue ⟨1, true⟩, QEvent.complete])
        [QEvent.enqueue ⟨2, false⟩, QEvent.complete]).crashed =
      (runEvents [QEvent.enqueue ⟨1, true⟩, QEvent.complete]).crashed ∧
    (runFrom (runEvents [QEvent.enqueue ⟨1, true⟩, QEvent.complete])
        [QEvent.enqueue ⟨2, false⟩, QEvent.complete]).queue =
      (runEvents [QEvent.enqueue ⟨1, true⟩, QEvent.complete]).queue ++
        enqueuedOf [QEvent.enqueue ⟨2, false⟩, QEvent.complete] := by
  have h := queue_failure_not_contained [QEvent.enqueue ⟨1, true⟩, QEvent.complete]
    [QEvent.enqueue ⟨2, false⟩, QEvent.complete] (by decide)
  exact ⟨by decide, h.1, h.2.1, h.2.2.1, h.2.2.2⟩

/-- With every remote call failing, a single sweep row changes nothing in the
store: the flag updates sit behind the `.then` of the successful call. -/
theorem syncRow_remote_false (inst : Instance) (store : Store) (r : MessageRow) :
    (syncRow inst (fun _ => false) store r).1 = store := by
  unfold syncRow
  by_cases h1 : r.SYNC_MESSAGE
  · by_cases h2 : r.SYNC_STATUS <;> simp [h1, h2]
  · simp [h1]

theorem sweepFold_remote_false (inst : Instance) :
    ∀ (rows : List MessageRow) (st : Store) (cs : List RemoteCall),
      (rows.foldl (sweepStep inst (fun _ => false)) (st, cs)).1 = st := by
  intro rows
  induction rows with
  | nil => intro st cs; rfl
  | cons r rest ih =>
    intro st cs
    have hstep : sweepStep inst (fun _ => false) (st, cs) r =
        (st, cs ++ (syncRow inst (fun _ => false) st r).2) := by
      simp only [sweepStep]
      rw [syncRow_remote_false inst st r]
    rw [List.foldl_cons, hstep]
    exact ih st _

/-- C1 counterexample: both immediate handlers set sync flags even though
the remote call failed (`remoteOk = false`).  onReceiveMessage on a message
passing all guards, with the saved row found, ends with SYNC_MESSAGE and
SYNC_STATUS true; onReceiveMessageStatus ends with SYNC_STATUS true. -/
theorem sync_flags_despite_remote_failure_cex :
    ((onReceiveMessageTask inst0 im0 (some pm0) false ["M1"] []).1.map
        (fun r => (r.ID, r.SYNC_MESSAGE, r.SYNC_STATUS)) = [("M1", true, true)]) ∧
    ((onReceiveStatusTask inst0 "M1" 2 false
        [{ row0 with SYNC_MESSAGE := false, SYNC_STATUS := false }]).1.map
        (fun r => (r.ID, r.SYNC_STATUS)) = [("M1", true)]) := by
  decide

/-- C1 amended: the immediate handlers do not gate the sync flags on remote
acknowledgement at all — their effect is identical whether the remote call
succeeds or fails, because `.catch(() => null)` swallows the outcome
(onReceiveMessage then sets both flags true whenever the saved row is found,
and onReceiveMessageStatus always sets SYNC_STATUS true).  Only the
reconciliation sweep sets flags strictly after an acknowledged call: with
every remote call failing, the sweep leaves the store unchanged. -/
theorem sync_flags_amended :
    (∀ (inst : Instance) (m : IncomingMessage) (parsed : Option ParsedMessage)
        (w : List String) (store : Store),
      onReceiveMessageTask inst m parsed false w store =
        onReceiveMessageTask inst m parsed true w store) ∧
    (∀ (inst : Instance) (msgId : String) (ack : Int) (store : Store),
      onReceiveStatusTask inst msgId ack false store =
        onReceiveStatusTask inst msgId ack true store) ∧
    (∀ (inst : Instance) (store : Store),
      (syncMessagesWithServer inst (fun _ => false) store).1 = store) := by
  refine ⟨fun _ _ _ _ _ => rfl, fun _ _ _ _ => rfl, fun inst store => ?_⟩
  unfold syncMessagesWithServer
  exact sweepFold_remote_false inst _ store []

/-- C4: evaluation of the sweep at a concrete store of inst0.  The row with
SYNC_MESSAGE set and SYNC_STATUS unset triggers exactly one remote call —
`PUT /update_message/{row.FROM}` — whose path parameter is the row's FROM
column ("5511999"), not its message identifier ("M1"); the settled row
triggers none; an unsynced row is forwarded in full and, on acknowledgement,
both its flags are set. -/
theorem sweep_status_path_uses_FROM :
    ((syncMessagesWithServer inst0 (fun _ => true) [row0]).2 =
      [RemoteCall.putUpdateMessage "5511999" (some "SENT")]) ∧
    row0.ID = "M1" ∧ row0.FROM = "5511999" ∧
    ((syncMessagesWithServer inst0 (fun _ => true) [row1]).2 = []) ∧
    ((syncMessagesWithServer inst0 (fun _ => true)
        [{ row0 with SYNC_MESSAGE := false, SYNC_STATUS := false }]).1.map
        (fun r => (r.ID, r.SYNC_MESSAGE, r.SYNC_STATUS)) = [("M1", true, true)]) := by
  decide

/-- Does this Log mutator stamp `finishedAt`? -/
def callsFinish : LogOp → Bool
  | LogOp.finish _ => true
  | _ => false

theorem foldl_no_finish_keeps_unfinished :
    ∀ (ops : List LogOp) (l : LogState), ops.all (fun op => !(callsFinish op)) = true →
      (ops.foldl applyLogOp l).finishedAt = l.finishedAt := by
  intro ops
  induction ops with
  | nil => intro l _; rfl
  | cons op rest ih =>
    intro l h
    simp only [List.all_cons, Bool.and_eq_true] at h
    have hstep : (applyLogOp l op).finishedAt = l.finishedAt := by
      cases op with
      | setData => rfl
      | setError => rfl
      | event => rfl
      | finish t =>
        have := h.1
        simp [callsFinish] at this
    rw [List.foldl_cons, ih _ h.2, hstep]

/-- C10: a Log on which finish() was never called saves nothing — save()
writes no file and throws nothing to its caller, whatever else was done to
the log and whether or not the filesystem would cooperate.  In particular
the log of the onReceiveMessage task body, which is built, fed data and an
error, and saved without ever being finished, is never persisted. -/
theorem logSave_unfinished_never_writes :
    (∀ (ops : List LogOp) (fsOk : Bool),
      ops.all (fun op => !(callsFinish op)) = true →
      logSave fsOk (ops.foldl applyLogOp mkLog) = ⟨false, false⟩) ∧
    (∀ fsOk : Bool,
      logSave fsOk (messageTaskLogOps.foldl applyLogOp mkLog) = ⟨false, false⟩) := by
  constructor
  · intro ops fsOk h
    have hfin : (ops.foldl applyLogOp mkLog).finishedAt = none :=
      foldl_no_finish_keeps_unfinished ops mkLog h
    simp [logSave, hfin]
  · intro fsOk
    cases fsOk <;> decide

/-- C10 witness: the message task's log-op sequence contains no finish, and
saving it (with a healthy filesystem) writes no file and throws nothing. -/
theorem logSave_unfinished_never_writes_witness :
    (messageTaskLogOps.all (fun op => !(callsFinish op)) = true) ∧
    logSave true (messageTaskLogOps.foldl applyLogOp mkLog) = ⟨false, false⟩ :=
  ⟨by decide, logSave_unfinished_never_writes.1 messageTaskLogOps true (by decide)⟩

end WaClientLite
